import Mathlib

/-!
Verification development for the hand-tracking region-of-interest pipeline in
`src/handpose/handpipeline.js` (class `HandPipeline`).

JavaScript numbers are modelled by `ℚ` (exact on every concrete value the
theorems below evaluate; note that in Lean `x / 0 = 0` while JS yields
`NaN`/`±Infinity` — each place where this matters is commented).

The helper modules `./box` and `./util` required by `handpipeline.js` are not
part of the repository snapshot; every definition taken from them is marked
`Modelled from the spec:` and follows the spec's description of that helper.
The transcendental functions `Math.cos`, `Math.sin`, `Math.atan2` are kept
abstract as an uninterpreted `TrigOracle` parameter, since no claim depends on
their numeric values.
-/

namespace HandPipeline

/-- Uninterpreted stand-ins for the JS float implementations of cos, sin and
atan2 used by the (missing) `util` module; all theorems hold for every choice. -/
structure TrigOracle where
  rcos : ℚ → ℚ
  rsin : ℚ → ℚ
  ratan2 : ℚ → ℚ → ℚ

/-- Homogeneous 2D affine transform, three rows of three entries, as produced
by `util.buildRotationMatrix`. -/
structure Mat3 where
  r0 : ℚ × ℚ × ℚ
  r1 : ℚ × ℚ × ℚ
  r2 : ℚ × ℚ × ℚ
deriving DecidableEq

/-- Modelled from the spec: dot product of two 3-vectors (`util.dot`). -/
def dot (v w : ℚ × ℚ × ℚ) : ℚ :=
  v.1 * w.1 + v.2.1 * w.2.1 + v.2.2 * w.2.2

/-- Modelled from the spec: `util.rotatePoint(point, matrix)` applies the
affine transform and returns the transformed `(x, y)`. -/
def rotatePoint (point : ℚ × ℚ × ℚ) (matrix : Mat3) : ℚ × ℚ :=
  (dot point matrix.r0, dot point matrix.r1)

/-- Modelled from the spec: `util.buildRotationMatrix(angle, pivot)` returns a
matrix representing rotation by `angle` around `pivot` (cos/sin supplied by the
trig oracle): `v ↦ R (v - pivot) + pivot` in homogeneous form. -/
def buildRotationMatrix (t : TrigOracle) (angle : ℚ) (center : ℚ × ℚ) : Mat3 :=
  let c := t.rcos angle
  let s := t.rsin angle
  { r0 := (c, -s, center.1 - c * center.1 + s * center.2)
    r1 := (s, c, center.2 - s * center.1 - c * center.2)
    r2 := (0, 0, 1) }

/-- Modelled from the spec: `util.invertTransformMatrix` returns the inverse
affine transform; its callers only ever pass pure rotations, for which the
linear part inverts by transposition. -/
def invertTransformMatrix (m : Mat3) : Mat3 :=
  let a := m.r0.1
  let b := m.r0.2.1
  let tx := m.r0.2.2
  let c := m.r1.1
  let d := m.r1.2.1
  let ty := m.r1.2.2
  { r0 := (a, c, -(a * tx + c * ty))
    r1 := (b, d, -(b * tx + d * ty))
    r2 := (0, 0, 1) }

/-- Modelled from the spec: `util.computeRotation(pointA, pointB)` returns the
angle of the vector from A to B relative to vertical, via the uninterpreted
atan2 of the trig oracle. -/
def computeRotation (t : TrigOracle) (p1 p2 : ℚ × ℚ) : ℚ :=
  t.ratan2 (p2.2 - p1.2) (p2.1 - p1.1)

/-- Bounding box as used throughout `handpipeline.js`: two corner points plus
the palm landmarks attached to detector/hand boxes (`[]` models the field being
absent on boxes that never receive it). -/
structure Box where
  startPoint : ℚ × ℚ
  endPoint : ℚ × ℚ
  palmLandmarks : List (ℚ × ℚ)
deriving DecidableEq

instance : Inhabited Box := ⟨⟨(0, 0), (0, 0), []⟩⟩

/-- Modelled from the spec: box size is `endPoint - startPoint` componentwise
(`box.getBoxSize`). -/
def getBoxSize (b : Box) : ℚ × ℚ :=
  (b.endPoint.1 - b.startPoint.1, b.endPoint.2 - b.startPoint.2)

/-- Modelled from the spec: box center is the midpoint of the two corners
(`box.getBoxCenter`). -/
def getBoxCenter (b : Box) : ℚ × ℚ :=
  ((b.startPoint.1 + b.endPoint.1) / 2, (b.startPoint.2 + b.endPoint.2) / 2)

/-- Modelled from the spec: `box.shiftBox(box, vector)` moves the box by the
given vector scaled by the box size, preserving its extent. -/
def shiftBox (b : Box) (v : ℚ × ℚ) : Box :=
  let size := getBoxSize b
  { startPoint := (b.startPoint.1 + v.1 * size.1, b.startPoint.2 + v.2 * size.2)
    endPoint := (b.endPoint.1 + v.1 * size.1, b.endPoint.2 + v.2 * size.2)
    palmLandmarks := b.palmLandmarks }

/-- Modelled from the spec: `box.squarifyBox` produces a box whose width equals
its height (the longer side), preserving the center. -/
def squarifyBox (b : Box) : Box :=
  let center := getBoxCenter b
  let size := getBoxSize b
  let half := max size.1 size.2 / 2
  { startPoint := (center.1 - half, center.2 - half)
    endPoint := (center.1 + half, center.2 + half)
    palmLandmarks := b.palmLandmarks }

/-- Modelled from the spec: `box.enlargeBox(box, f)` scales width and height by
exactly `f`, preserving the center. -/
def enlargeBox (b : Box) (f : ℚ) : Box :=
  let center := getBoxCenter b
  let size := getBoxSize b
  { startPoint := (center.1 - f * size.1 / 2, center.2 - f * size.2 / 2)
    endPoint := (center.1 + f * size.1 / 2, center.2 + f * size.2 / 2)
    palmLandmarks := b.palmLandmarks }

def UPDATE_REGION_OF_INTEREST_IOU_THRESHOLD : ℚ := 4 / 5

def PALM_BOX_SHIFT_VECTOR : ℚ × ℚ := (0, -2/5)

def PALM_BOX_ENLARGE_FACTOR : ℚ := 3

def HAND_BOX_SHIFT_VECTOR : ℚ × ℚ := (0, -1/10)

def HAND_BOX_ENLARGE_FACTOR : ℚ := 33/20

def PALM_LANDMARK_IDS : List Nat := [0, 5, 9, 13, 17, 1, 2]

def PALM_LANDMARKS_INDEX_OF_PALM_BASE : Nat := 0

def PALM_LANDMARKS_INDEX_OF_MIDDLE_FINGER_BASE : Nat := 2

/-- Minimum of a list of rationals, as `Math.min(...xs)` on a nonempty spread;
JS returns `Infinity` on an empty argument list, which has no rational value,
so the empty case is given the junk value `0` and every theorem about it
assumes a nonempty list (all call sites in the source pass nonempty lists). -/
def listMin : List ℚ → ℚ
  | [] => 0
  | [x] => x
  | x :: y :: t => min x (listMin (y :: t))

/-- Maximum of a list of rationals, as `Math.max(...xs)` on a nonempty spread;
empty case as in `listMin`. -/
def listMax : List ℚ → ℚ
  | [] => 0
  | [x] => x
  | x :: y :: t => max x (listMax (y :: t))

/-- Embeds `calculateLandmarksBoundingBox` (handpipeline.js lines 166-172):
componentwise min of the landmark x/y values as `startPoint`, componentwise max
as `endPoint`. The JS function reads only components 0 and 1 of each landmark,
so it is typed over `(x, y)` pairs; 3-component call sites project first. -/
def calculateLandmarksBoundingBox (landmarks : List (ℚ × ℚ)) : Box :=
  let xs := landmarks.map (fun d => d.1)
  let ys := landmarks.map (fun d => d.2)
  { startPoint := (listMin xs, listMin ys)
    endPoint := (listMax xs, listMax ys)
    palmLandmarks := [] }

/-- Embeds the IoU computation inlined in `updateRegionsOfInterest`
(handpipeline.js lines 178-189), faithfully including line 188, where
`previousBoxArea` uses `boxStartY` (the NEW box's startY) instead of
`previousBoxStartY`, and line 186, where the intersection term is not clamped
at 0. Lean's `x / 0 = 0` stands in for the JS division; every concrete input
used below has a nonzero denominator. -/
def computeIou (newBox previousBox : Box) : ℚ :=
  let boxStartX := newBox.startPoint.1
  let boxStartY := newBox.startPoint.2
  let boxEndX := newBox.endPoint.1
  let boxEndY := newBox.endPoint.2
  let previousBoxStartX := previousBox.startPoint.1
  let previousBoxStartY := previousBox.startPoint.2
  let previousBoxEndX := previousBox.endPoint.1
  let previousBoxEndY := previousBox.endPoint.2
  let xStartMax := max boxStartX previousBoxStartX
  let yStartMax := max boxStartY previousBoxStartY
  let xEndMin := min boxEndX previousBoxEndX
  let yEndMin := min boxEndY previousBoxEndY
  let intersection := (xEndMin - xStartMax) * (yEndMin - yStartMax)
  let boxArea := (boxEndX - boxStartX) * (boxEndY - boxStartY)
  let previousBoxArea := (previousBoxEndX - previousBoxStartX) * (previousBoxEndY - boxStartY)
  intersection / (boxArea + previousBoxArea - intersection)

/-- Modelled from the spec: the standard symmetric intersection-over-union the
spec describes for `iou(boxA, boxB)` — intersection area divided by union area,
each box's own coordinates for its own area, and 0 whenever the boxes do not
overlap or either box has non-positive area. Stated from the spec's words for
comparison with `computeIou`, which embeds the source. -/
def specIou (boxA boxB : Box) : ℚ :=
  let interW := min boxA.endPoint.1 boxB.endPoint.1 - max boxA.startPoint.1 boxB.startPoint.1
  let interH := min boxA.endPoint.2 boxB.endPoint.2 - max boxA.startPoint.2 boxB.startPoint.2
  let areaA := (boxA.endPoint.1 - boxA.startPoint.1) * (boxA.endPoint.2 - boxA.startPoint.2)
  let areaB := (boxB.endPoint.1 - boxB.startPoint.1) * (boxB.endPoint.2 - boxB.startPoint.2)
  if areaA ≤ 0 ∨ areaB ≤ 0 ∨ interW ≤ 0 ∨ interH ≤ 0 then 0
  else
    let inter := interW * interH
    inter / (areaA + areaB - inter)

/-- Embeds `updateRegionsOfInterest(newBox, i)` (handpipeline.js lines
174-192) as a function of the region list: when slot `i` holds a previous box,
the slot is set to the previous box if the computed iou exceeds the 0.8
threshold and to `newBox` otherwise; when `i` holds nothing the guard fails,
iou stays 0 and the slot is set to `newBox` (the loop in `estimateHands` only
ever passes in-range indices). -/
def updateRegionsOfInterest (regions : List Box) (newBox : Box) (i : Nat) : List Box :=
  match regions[i]? with
  | some previousBox =>
      regions.set i
        (if UPDATE_REGION_OF_INTEREST_IOU_THRESHOLD < computeIou newBox previousBox
         then previousBox else newBox)
  | none => regions.set i newBox

/-- Embeds `getBoxForPalmLandmarks` (handpipeline.js lines 42-49): rotate the
palm landmarks as homogeneous coordinates, take their bounding box, then shift,
squarify and enlarge it. -/
def getBoxForPalmLandmarks (palmLandmarks : List (ℚ × ℚ))
    (rotationMatrix : Mat3) : Box :=
  let rotatedPalmLandmarks := palmLandmarks.map
    (fun coord => rotatePoint (coord.1, coord.2, 1) rotationMatrix)
  let boxAroundPalm := calculateLandmarksBoundingBox rotatedPalmLandmarks
  enlargeBox (squarifyBox (shiftBox boxAroundPalm PALM_BOX_SHIFT_VECTOR)) PALM_BOX_ENLARGE_FACTOR

/-- Embeds `getBoxForHandLandmarks` (handpipeline.js lines 51-60): bounding box
of the landmarks, shifted/squarified/enlarged, with the palm-landmark subset
(indices `PALM_LANDMARK_IDS`, first two components) attached. Out-of-range
landmark indices (which would throw in JS) are given `(0, 0, 0)`; all source
call sites pass 21 landmarks. -/
def getBoxForHandLandmarks (landmarks : List (ℚ × ℚ × ℚ)) : Box :=
  let boundingBox := calculateLandmarksBoundingBox (landmarks.map (fun d => (d.1, d.2.1)))
  let boxAroundHand :=
    enlargeBox (squarifyBox (shiftBox boundingBox HAND_BOX_SHIFT_VECTOR)) HAND_BOX_ENLARGE_FACTOR
  let palmLandmarks := PALM_LANDMARK_IDS.map
    (fun id => ((landmarks.getD id (0, 0, 0)).1, (landmarks.getD id (0, 0, 0)).2.1))
  { boxAroundHand with palmLandmarks := palmLandmarks }

/-- Embeds `transformRawCoords(rawCoords, box2, angle, rotationMatrix)`
(handpipeline.js lines 62-86): scale raw keypoints by the crop-box/input-size
ratio around the input midpoint, rotate the x/y pair by `angle` about the
origin, then translate by the crop-box center projected through the inverse of
the alignment rotation; the third component is carried along unchanged. -/
def transformRawCoords (t : TrigOracle) (inputSize : ℚ) (rawCoords : List (ℚ × ℚ × ℚ))
    (box2 : Box) (angle : ℚ) (rotationMatrix : Mat3) : List (ℚ × ℚ × ℚ) :=
  let boxSize := getBoxSize box2
  let scaleFactor := (boxSize.1 / inputSize, boxSize.2 / inputSize)
  let coordsScaled := rawCoords.map
    (fun coord => (scaleFactor.1 * (coord.1 - inputSize / 2),
                   scaleFactor.2 * (coord.2.1 - inputSize / 2),
                   coord.2.2))
  let coordsRotationMatrix := buildRotationMatrix t angle (0, 0)
  let coordsRotated := coordsScaled.map
    (fun coord =>
      let rotated := rotatePoint coord coordsRotationMatrix
      (rotated.1, rotated.2, coord.2.2))
  let inverseRotationMatrix := invertTransformMatrix rotationMatrix
  let center := getBoxCenter box2
  let boxCenter : ℚ × ℚ × ℚ := (center.1, center.2, 1)
  let originalBoxCenter := (dot boxCenter inverseRotationMatrix.r0,
                            dot boxCenter inverseRotationMatrix.r1)
  coordsRotated.map
    (fun coord => (coord.1 + originalBoxCenter.1, coord.2.1 + originalBoxCenter.2, coord.2.2))

/-- Configuration fields of `config` read by `estimateHands`. -/
structure HandConfig where
  skipFrames : Nat
  maxHands : Nat
  minConfidence : ℚ
deriving DecidableEq

/-- Per-frame external collaborators, abstracted as oracles: `detections` is
what `boundingBoxDetector.estimateHandBounds(image, config)` would return this
frame, and `predict i` is the `(confidence, rawCoords)` pair the mesh detector
returns for the crop of slot `i` (the raw keypoints already reshaped to
3-vectors, as `arraySync` on the reshaped tensor yields). -/
structure FrameOracle where
  detections : List Box
  predict : Nat → ℚ × List (ℚ × ℚ × ℚ)

/-- Mutable fields of `HandPipeline` touched by `estimateHands`
(`this.regionsOfInterest`, `this.runsWithoutHandDetector`,
`this.detectedHands`). -/
structure PipelineState where
  regionsOfInterest : List Box
  runsWithoutHandDetector : Nat
  detectedHands : Nat
deriving DecidableEq

/-- One entry of the `hands` result array built in `estimateHands`. -/
structure Hand where
  landmarks : List (ℚ × ℚ × ℚ)
  handInViewConfidence : ℚ
  bbTopLeft : ℚ × ℚ
  bbBottomRight : ℚ × ℚ
deriving DecidableEq

/-- Result of one `estimateHands` call: the returned value (`none` models
`return null`), the pipeline state after the call, whether
`boundingBoxDetector.estimateHandBounds` was invoked, and whether the call
disposed the caller's input image (line 100). -/
structure EstimateOut where
  hands : Option (List Hand)
  state : PipelineState
  detectorInvoked : Bool
  imageDisposed : Bool
deriving DecidableEq

/-- Confidence acceptance test of handpipeline.js line 130:
`confidenceValue >= config.minConfidence` for slot `i`. -/
def passSlot (cfg : HandConfig) (oracle : FrameOracle) (i : Nat) : Bool :=
  decide (cfg.minConfidence ≤ (oracle.predict i).1)

/-- Alignment angle of a slot's box (handpipeline.js line 115): rotation from
palm base (palm landmark 0) to middle-finger base (palm landmark 2); absent
entries (impossible at source call sites) default to `(0, 0)`. -/
def slotAngle (t : TrigOracle) (currentBox : Box) : ℚ :=
  computeRotation t
    (currentBox.palmLandmarks.getD PALM_LANDMARKS_INDEX_OF_PALM_BASE (0, 0))
    (currentBox.palmLandmarks.getD PALM_LANDMARKS_INDEX_OF_MIDDLE_FINGER_BASE (0, 0))

/-- Image-space landmarks computed for a slot (handpipeline.js lines 115-135):
the crop box is the palm-landmark box on a fresh frame and the tracked box
otherwise, and the predictor's raw coordinates for slot `i` are mapped back
through `transformRawCoords`. -/
def slotCoords (t : TrigOracle) (inputSize : ℚ) (oracle : FrameOracle)
    (useFreshBox : Bool) (currentBox : Box) (i : Nat) : List (ℚ × ℚ × ℚ) :=
  let angle := slotAngle t currentBox
  let rotationMatrix := buildRotationMatrix t (-angle) (getBoxCenter currentBox)
  let newBox := if useFreshBox
    then getBoxForPalmLandmarks currentBox.palmLandmarks rotationMatrix
    else currentBox
  transformRawCoords t inputSize (oracle.predict i).2 newBox angle rotationMatrix

/-- The `nextBoundingBox` a slot stores back (handpipeline.js line 136). -/
def slotNextBox (t : TrigOracle) (inputSize : ℚ) (oracle : FrameOracle)
    (useFreshBox : Bool) (currentBox : Box) (i : Nat) : Box :=
  getBoxForHandLandmarks (slotCoords t inputSize oracle useFreshBox currentBox i)

/-- The result entry pushed for an accepted slot (handpipeline.js lines
138-146). -/
def slotHand (t : TrigOracle) (inputSize : ℚ) (oracle : FrameOracle)
    (useFreshBox : Bool) (currentBox : Box) (i : Nat) : Hand :=
  let nb := slotNextBox t inputSize oracle useFreshBox currentBox i
  { landmarks := slotCoords t inputSize oracle useFreshBox currentBox i
    handInViewConfidence := (oracle.predict i).1
    bbTopLeft := nb.startPoint
    bbBottomRight := nb.endPoint }

/-- One iteration of the `for (const i in this.regionsOfInterest)` loop
(handpipeline.js lines 112-160): a missing slot is skipped (line 114), a
below-threshold confidence leaves both accumulators untouched (the `else`
branch is entirely commented out in the source), and an accepted slot appends
its result entry and writes `nextBoundingBox` through
`updateRegionsOfInterest`. -/
def slotStep (t : TrigOracle) (inputSize : ℚ) (cfg : HandConfig) (oracle : FrameOracle)
    (useFreshBox : Bool) (acc : List Hand × List Box) (i : Nat) : List Hand × List Box :=
  match acc.2[i]? with
  | none => acc
  | some currentBox =>
    if passSlot cfg oracle i then
      (acc.1 ++ [slotHand t inputSize oracle useFreshBox currentBox i],
       updateRegionsOfInterest acc.2 (slotNextBox t inputSize oracle useFreshBox currentBox i) i)
    else acc

/-- The whole per-slot loop over the (reconciled) region list. -/
def slotPhase (t : TrigOracle) (inputSize : ℚ) (cfg : HandConfig) (oracle : FrameOracle)
    (useFreshBox : Bool) (rs : List Box) : List Hand × List Box :=
  (List.range rs.length).foldl (slotStep t inputSize cfg oracle useFreshBox) ([], rs)

/-- Embeds the detection/reconciliation prefix of `estimateHands`
(handpipeline.js lines 88-110). Returns the `detectorInvoked` flag and either
`none` (the early `return null` of lines 97-103: no or zero fresh detections on
a fresh-box frame) or `some (useFreshBox, regions, runsAfter)`: the flag and
region list the slot loop runs on, and the value `this.runsWithoutHandDetector`
holds after the call (reset to 0 only when the region list is rebuilt, line
107; incremented otherwise, line 109). -/
def reconcile (cfg : HandConfig) (oracle : FrameOracle) (st : PipelineState) :
    Bool × Option (Bool × List Box × Nat) :=
  let useFreshBox0 : Bool :=
    decide (st.detectedHands = 0) || decide (st.detectedHands ≠ st.regionsOfInterest.length)
  let invoke : Bool := useFreshBox0 || decide (cfg.skipFrames < st.runsWithoutHandDetector)
  let boundingBoxPredictions : Option (List Box) :=
    if invoke then some oracle.detections else none
  let useFreshBox : Bool := useFreshBox0 ||
    (decide (1 < cfg.maxHands) &&
      (match boundingBoxPredictions with
       | some ps => decide (0 < ps.length) && decide (ps.length ≠ st.detectedHands)
       | none => false))
  if useFreshBox then
    match boundingBoxPredictions with
    | none => (invoke, none)
    | some [] => (invoke, none)
    | some ps => (invoke, some (true, ps, 0))
  else
    (invoke, some (false, st.regionsOfInterest, st.runsWithoutHandDetector + 1))

/-- Embeds `estimateHands(image, config)` (handpipeline.js lines 88-163) as a
state transformer: reconciliation prefix, then the per-slot loop; the final
state records `this.detectedHands = hands.length` (line 161), and the early
branch returns `null` after clearing the regions, disposing the input image
and zeroing `this.detectedHands` (lines 98-102, with the counter untouched by
lines 107/109 on that path). -/
def estimateHands (t : TrigOracle) (inputSize : ℚ) (cfg : HandConfig)
    (oracle : FrameOracle) (st : PipelineState) : EstimateOut :=
  match reconcile cfg oracle st with
  | (invoke, none) =>
      { hands := none
        state := { regionsOfInterest := []
                   runsWithoutHandDetector := st.runsWithoutHandDetector
                   detectedHands := 0 }
        detectorInvoked := invoke
        imageDisposed := true }
  | (invoke, some (fresh, rs, runs1)) =>
      let hr := slotPhase t inputSize cfg oracle fresh rs
      { hands := some hr.1
        state := { regionsOfInterest := hr.2
                   runsWithoutHandDetector := runs1
                   detectedHands := hr.1.length }
        detectorInvoked := invoke
        imageDisposed := false }

/-- Concrete trig oracle for the closed multi-frame scenarios below (the
claims settled on them are about control flow, which is independent of the
trig values). -/
def trigC3 : TrigOracle := ⟨fun _ => 1, fun _ => 0, fun _ _ => 0⟩

/-- Detector box used in the skip-frames scenario; its palm landmarks provide
the palm-base and middle-finger-base entries the slot loop reads. -/
def boxC3 : Box := ⟨(0, 0), (4, 4), [(1, 1), (2, 2), (3, 3)]⟩

/-- Configuration of the claimed skip-frames scenario: `skipFrames = 5`,
single-hand, permissive confidence threshold. -/
def cfgC3 : HandConfig := ⟨5, 1, 1/2⟩

/-- Frame oracle of the skip-frames scenario: the detector always finds
exactly `boxC3` and the predictor always answers with confidence 1, so the
tracked-region count stays stable at 1 across calls. -/
def oracleC3 : FrameOracle := ⟨[boxC3], fun _ => (1, [(1, 1, 0)])⟩

/-- Pipeline state before frame `n + 1` of the skip-frames scenario, starting
from the freshly constructed pipeline. -/
def simStateC3 : Nat → PipelineState
  | 0 => ⟨[], 0, 0⟩
  | n + 1 => (estimateHands trigC3 1 cfgC3 oracleC3 (simStateC3 n)).state

/-- Result of frame `n + 1` of the skip-frames scenario. -/
def simFrameC3 (n : Nat) : EstimateOut :=
  estimateHands trigC3 1 cfgC3 oracleC3 (simStateC3 n)

/-- Concrete trig oracle for the maxHands scenario. -/
def trigC4 : TrigOracle := ⟨fun _ => 1, fun _ => 0, fun _ _ => 0⟩

/-- First detector box of the maxHands scenario. -/
def boxC4a : Box := ⟨(0, 0), (4, 4), [(1, 1), (2, 2), (3, 3)]⟩

/-- Second detector box of the maxHands scenario. -/
def boxC4b : Box := ⟨(10, 10), (14, 14), [(11, 11), (12, 12), (13, 13)]⟩

/-- Configuration of the maxHands scenario: `maxHands = 1`. -/
def cfgC4 : HandConfig := ⟨5, 1, 1/2⟩

/-- Frame oracle of the maxHands scenario: the detector returns two boxes. -/
def oracleC4 : FrameOracle := ⟨[boxC4a, boxC4b], fun _ => (1, [(1, 1, 0)])⟩

/-- The first call of the maxHands scenario, from the freshly constructed
pipeline state. -/
def runC4 : EstimateOut := estimateHands trigC4 1 cfgC4 oracleC4 ⟨[], 0, 0⟩

/-- Concrete trig oracle for the low-confidence witness scenario. -/
def trigC6 : TrigOracle := ⟨fun _ => 1, fun _ => 0, fun _ _ => 0⟩

/-- Tracked box of the low-confidence witness scenario. -/
def boxC6 : Box := ⟨(0, 0), (4, 4), [(1, 1), (2, 2), (3, 3)]⟩

/-- Configuration of the low-confidence witness scenario:
`minConfidence = 1/2`. -/
def cfgC6 : HandConfig := ⟨5, 1, 1/2⟩

/-- Frame oracle of the low-confidence witness scenario: the predictor reports
confidence 0 for every slot, below the threshold. -/
def oracleC6 : FrameOracle := ⟨[boxC6], fun _ => (0, [(1, 1, 0)])⟩

/-- State of the low-confidence witness scenario: one tracked region with a
matching detected count, so no fresh detection happens. -/
def stC6 : PipelineState := ⟨[boxC6], 0, 1⟩

/-- Concrete trig oracle for the dropped-slot counter witness scenario. -/
def trigC10 : TrigOracle := ⟨fun _ => 1, fun _ => 0, fun _ _ => 0⟩

/-- Tracked box of the dropped-slot counter witness scenario. -/
def boxC10 : Box := ⟨(0, 0), (4, 4), [(1, 1), (2, 2), (3, 3)]⟩

/-- Configuration of the dropped-slot counter witness scenario. -/
def cfgC10 : HandConfig := ⟨5, 1, 1/2⟩

/-- Frame oracle of the dropped-slot counter witness scenario: confidence 0 on
every slot. -/
def oracleC10 : FrameOracle := ⟨[boxC10], fun _ => (0, [(1, 1, 0)])⟩

/-- State of the dropped-slot counter witness scenario. -/
def stC10 : PipelineState := ⟨[boxC10], 0, 1⟩

theorem updateRegionsOfInterest_length (regions : List Box) (nb : Box) (i : Nat) :
    (updateRegionsOfInterest regions nb i).length = regions.length := by
  unfold updateRegionsOfInterest
  cases h : regions[i]? <;> simp

theorem updateRegionsOfInterest_getElem_ne (regions : List Box) (nb : Box) (i j : Nat)
    (h : i ≠ j) :
    (updateRegionsOfInterest regions nb i)[j]? = regions[j]? := by
  unfold updateRegionsOfInterest
  cases hh : regions[i]? <;> simp [List.getElem?_set_ne h]

/-- Invariant of the per-slot loop: folding `slotStep` over a strictly
increasing list of in-range indices appends exactly one result entry per
passing index (computed from that slot's box in the starting region list `g`,
which agrees with `rs` on those indices), preserves the region-list length,
and leaves every region slot untouched whose index fails the confidence test
or is not visited. -/
theorem slotFold_spec (t : TrigOracle) (inputSize : ℚ) (cfg : HandConfig)
    (oracle : FrameOracle) (fresh : Bool) (rs : List Box) (l : List Nat) :
    l.Pairwise (· < ·) →
    ∀ (hs0 : List Hand) (g : List Box),
      (∀ i ∈ l, i < rs.length) →
      (∀ i ∈ l, g[i]? = rs[i]?) →
      (l.foldl (slotStep t inputSize cfg oracle fresh) (hs0, g)).1 =
          hs0 ++ (l.filter (passSlot cfg oracle)).map
            (fun i => slotHand t inputSize oracle fresh (rs.getD i default) i) ∧
      (l.foldl (slotStep t inputSize cfg oracle fresh) (hs0, g)).2.length = g.length ∧
      ∀ j : Nat, (passSlot cfg oracle j = false ∨ j ∉ l) →
        (l.foldl (slotStep t inputSize cfg oracle fresh) (hs0, g)).2[j]? = g[j]? := by
  induction l with
  | nil =>
    intro _ hs0 g _ _
    simp
  | cons i tl ih =>
    intro hpw hs0 g hlt hagree
    obtain ⟨hhead, hpw'⟩ := List.pairwise_cons.mp hpw
    have hi : i < rs.length := hlt i (List.mem_cons_self i tl)
    have hrsi : rs[i]? = some (rs.getD i default) := by
      simp [List.getD_eq_getElem?_getD, List.getElem?_eq_getElem hi]
    have hgi : g[i]? = some (rs.getD i default) := (hagree i (List.mem_cons_self i tl)).trans hrsi
    rw [List.foldl_cons]
    cases hp : passSlot cfg oracle i with
    | false =>
      have hstep : slotStep t inputSize cfg oracle fresh (hs0, g) i = (hs0, g) := by
        simp [slotStep, hgi, hp]
      rw [hstep]
      obtain ⟨h1, h2, h3⟩ := ih hpw' hs0 g
        (fun j hj => hlt j (List.mem_cons_of_mem i hj))
        (fun j hj => hagree j (List.mem_cons_of_mem i hj))
      refine ⟨?_, h2, ?_⟩
      · rw [h1, List.filter_cons_of_neg (by simp [hp])]
      · intro j hj
        refine h3 j ?_
        rcases hj with hj | hj
        · exact Or.inl hj
        · exact Or.inr (fun hmem => hj (List.mem_cons_of_mem i hmem))
    | true =>
      set b := rs.getD i default with hb
      set nb := slotNextBox t inputSize oracle fresh b i with hnb
      have hstep : slotStep t inputSize cfg oracle fresh (hs0, g) i =
          (hs0 ++ [slotHand t inputSize oracle fresh b i],
           updateRegionsOfInterest g nb i) := by
        simp [slotStep, hgi, hp, hnb]
      rw [hstep]
      obtain ⟨h1, h2, h3⟩ := ih hpw'
        (hs0 ++ [slotHand t inputSize oracle fresh b i]) (updateRegionsOfInterest g nb i)
        (fun j hj => hlt j (List.mem_cons_of_mem i hj))
        (fun j hj => by
          have hne : i ≠ j := Nat.ne_of_lt (hhead j hj)
          rw [updateRegionsOfInterest_getElem_ne g nb i j hne]
          exact hagree j (List.mem_cons_of_mem i hj))
      refine ⟨?_, ?_, ?_⟩
      · rw [h1, List.filter_cons_of_pos (by simp [hp]), List.map_cons, List.append_assoc]
        rfl
      · rw [h2, updateRegionsOfInterest_length]
      · intro j hj
        have hjne : i ≠ j := by
          rintro rfl
          rcases hj with hj | hj
          · rw [hp] at hj; exact absurd hj (by simp)
          · exact hj (List.mem_cons_self i tl)
        have htl : passSlot cfg oracle j = false ∨ j ∉ tl := by
          rcases hj with hj | hj
          · exact Or.inl hj
          · exact Or.inr (fun hmem => hj (List.mem_cons_of_mem i hmem))
        rw [h3 j htl, updateRegionsOfInterest_getElem_ne g nb i j hjne]

/-- Specialization of `slotFold_spec` to the loop `estimateHands` actually
runs: over `List.range rs.length` starting from `([], rs)`. -/
theorem slotPhase_spec (t : TrigOracle) (inputSize : ℚ) (cfg : HandConfig)
    (oracle : FrameOracle) (fresh : Bool) (rs : List Box) :
    (slotPhase t inputSize cfg oracle fresh rs).1 =
        ((List.range rs.length).filter (passSlot cfg oracle)).map
          (fun i => slotHand t inputSize oracle fresh (rs.getD i default) i) ∧
    (slotPhase t inputSize cfg oracle fresh rs).2.length = rs.length ∧
    ∀ j : Nat, passSlot cfg oracle j = false →
      (slotPhase t inputSize cfg oracle fresh rs).2[j]? = rs[j]? := by
  obtain ⟨h1, h2, h3⟩ := slotFold_spec t inputSize cfg oracle fresh rs
    (List.range rs.length) (List.pairwise_lt_range rs.length) [] rs
    (fun i hi => List.mem_range.mp hi) (fun i _ => rfl)
  exact ⟨by simpa using h1, h2, fun j hj => h3 j (Or.inl hj)⟩

theorem length_filter_lt_of_mem_false {α : Type} (p : α → Bool) :
    ∀ (l : List α) (x : α), x ∈ l → p x = false → (l.filter p).length < l.length := by
  intro l
  induction l with
  | nil => intro x hx; cases hx
  | cons a t ih =>
    intro x hx hp
    rcases List.mem_cons.mp hx with rfl | hx
    · rw [List.filter_cons_of_neg (by simp [hp])]
      simp only [List.length_cons]
      exact Nat.lt_succ_of_le (List.length_filter_le p t)
    · cases hpa : p a with
      | true =>
        rw [List.filter_cons_of_pos (by simp [hpa])]
        simpa using ih x hx hp
      | false =>
        rw [List.filter_cons_of_neg (by simp [hpa])]
        simp only [List.length_cons]
        exact Nat.lt_succ_of_lt (ih x hx hp)

/-- The detector-invocation flag of a call is the condition of handpipeline.js
line 94: a fresh box is needed, or the runs-without-detector counter strictly
exceeds `skipFrames`. -/
theorem reconcile_fst_eq (cfg : HandConfig) (oracle : FrameOracle) (st : PipelineState) :
    (reconcile cfg oracle st).1 =
      ((decide (st.detectedHands = 0) || decide (st.detectedHands ≠ st.regionsOfInterest.length))
        || decide (cfg.skipFrames < st.runsWithoutHandDetector)) := by
  unfold reconcile
  dsimp only
  repeat' split
  all_goals rfl

theorem estimateHands_detectorInvoked_eq (t : TrigOracle) (inputSize : ℚ) (cfg : HandConfig)
    (oracle : FrameOracle) (st : PipelineState) :
    (estimateHands t inputSize cfg oracle st).detectorInvoked = (reconcile cfg oracle st).1 := by
  unfold estimateHands
  rcases h : reconcile cfg oracle st with ⟨inv, rest⟩
  rcases rest with _ | ⟨fresh, rs, r1⟩ <;> simp

theorem detectorInvoked_of_zero_detected (t : TrigOracle) (inputSize : ℚ) (cfg : HandConfig)
    (oracle : FrameOracle) (st : PipelineState) (h : st.detectedHands = 0) :
    (estimateHands t inputSize cfg oracle st).detectorInvoked = true := by
  rw [estimateHands_detectorInvoked_eq, reconcile_fst_eq]
  simp [h]

theorem detectorInvoked_of_count_mismatch (t : TrigOracle) (inputSize : ℚ) (cfg : HandConfig)
    (oracle : FrameOracle) (st : PipelineState)
    (h : st.detectedHands ≠ st.regionsOfInterest.length) :
    (estimateHands t inputSize cfg oracle st).detectorInvoked = true := by
  rw [estimateHands_detectorInvoked_eq, reconcile_fst_eq]
  simp [h]

/-- A forced-fresh frame (zero previously detected hands, or a count mismatch)
whose detector pass returns no boxes reconciles to the early `return null`
path. -/
theorem reconcile_forced_empty (cfg : HandConfig) (oracle : FrameOracle) (st : PipelineState)
    (hforced : st.detectedHands = 0 ∨ st.detectedHands ≠ st.regionsOfInterest.length)
    (hempty : oracle.detections = []) :
    reconcile cfg oracle st = (true, none) := by
  have h0 : (decide (st.detectedHands = 0)
      || decide (st.detectedHands ≠ st.regionsOfInterest.length)) = true := by
    rcases hforced with h | h <;> simp [h]
  unfold reconcile
  rw [h0]
  simp [hempty]

theorem estimateHands_of_reconcile_some (t : TrigOracle) (inputSize : ℚ) (cfg : HandConfig)
    (oracle : FrameOracle) (st : PipelineState) (inv fresh : Bool) (rs : List Box) (r1 : Nat)
    (hrec : reconcile cfg oracle st = (inv, some (fresh, rs, r1))) :
    estimateHands t inputSize cfg oracle st =
      { hands := some (slotPhase t inputSize cfg oracle fresh rs).1
        state := { regionsOfInterest := (slotPhase t inputSize cfg oracle fresh rs).2
                   runsWithoutHandDetector := r1
                   detectedHands := (slotPhase t inputSize cfg oracle fresh rs).1.length }
        detectorInvoked := inv
        imageDisposed := false } := by
  unfold estimateHands
  rw [hrec]

/-- C1: the claim states that the IoU computed by the per-slot region update is
the standard symmetric intersection-over-union, in particular 0 for disjoint
boxes. It is not: for the disjoint unit boxes below, the inlined formula of
`updateRegionsOfInterest` yields 1/3 (the unclamped intersection term
multiplies two negative extents, and `previousBoxArea` is computed with the new
box's startY), while the spec's IoU is 0. -/
theorem iou_formula_divergence :
    computeIou ⟨(0, 0), (1, 1), []⟩ ⟨(2, 2), (3, 3), []⟩ = 1/3 ∧
    specIou ⟨(0, 0), (1, 1), []⟩ ⟨(2, 2), (3, 3), []⟩ = 0 ∧
    computeIou ⟨(0, 0), (1, 1), []⟩ ⟨(2, 2), (3, 3), []⟩ ≠
      specIou ⟨(0, 0), (1, 1), []⟩ ⟨(2, 2), (3, 3), []⟩ := by
  have h1 : computeIou ⟨(0, 0), (1, 1), []⟩ ⟨(2, 2), (3, 3), []⟩ = 1/3 := by
    with_unfolding_all rfl
  have h2 : specIou ⟨(0, 0), (1, 1), []⟩ ⟨(2, 2), (3, 3), []⟩ = 0 := by
    with_unfolding_all rfl
  refine ⟨h1, h2, ?_⟩
  rw [h1, h2]
  norm_num

/-- C2: the claim states that a slot whose new and previous boxes have IoU
above 0.8 keeps the previous box. For the boxes below the true IoU is 17/20,
above the threshold, yet `updateRegionsOfInterest` replaces the stored box with
the new box, because its own iou formula (with the `previousBoxArea` slip)
evaluates to 17/23, below the threshold. -/
theorem iou_gate_stability_divergence :
    specIou ⟨(0, 0), (10, 10), []⟩ ⟨(0, 3/2), (10, 10), []⟩ = 17/20 ∧
    UPDATE_REGION_OF_INTEREST_IOU_THRESHOLD < 17/20 ∧
    computeIou ⟨(0, 0), (10, 10), []⟩ ⟨(0, 3/2), (10, 10), []⟩ = 17/23 ∧
    updateRegionsOfInterest [⟨(0, 3/2), (10, 10), []⟩] ⟨(0, 0), (10, 10), []⟩ 0 =
      [⟨(0, 0), (10, 10), []⟩] ∧
    (⟨(0, 0), (10, 10), []⟩ : Box) ≠ ⟨(0, 3/2), (10, 10), []⟩ := by
  refine ⟨by with_unfolding_all rfl, ?_, by with_unfolding_all rfl,
    by with_unfolding_all rfl, ?_⟩
  · norm_num [UPDATE_REGION_OF_INTEREST_IOU_THRESHOLD]
  · intro h
    have := congrArg (fun b : Box => b.startPoint.2) h
    norm_num at this

/-- C3 (counterexample): in the claimed scenario — `skipFrames = 5`, tracked
count stable and non-zero across calls — the detector is invoked on frame 1,
but on frame 7 it is NOT invoked (the source re-runs it only once
`runsWithoutHandDetector` strictly exceeds `skipFrames`, which first happens on
frame 8), contradicting the claim that frame 7 runs a fresh detection. -/
theorem skipFrames_frame7_not_invoked :
    (List.range 7).map (fun n => (simFrameC3 n).state.detectedHands) =
      [1, 1, 1, 1, 1, 1, 1] ∧
    (simFrameC3 0).detectorInvoked = true ∧
    (simFrameC3 6).detectorInvoked = false := by
  refine ⟨?_, ?_, ?_⟩ <;> with_unfolding_all rfl

/-- C3 (amended): in the same scenario the detector runs on frame 1 and then
on frame 8 and every later frame, never on frames 2-7; the counter increments
on every call that does not rebuild the region list — including frames 8-10,
which invoke the detector but ignore its result — and is reset to 0 only by a
region-list rebuild (frame 1). -/
theorem skipFrames_schedule_trace :
    (List.range 10).map (fun n => (simFrameC3 n).detectorInvoked) =
      [true, false, false, false, false, false, false, true, true, true] ∧
    (List.range 10).map (fun n => (simFrameC3 n).state.runsWithoutHandDetector) =
      [0, 1, 2, 3, 4, 5, 6, 7, 8, 9] ∧
    (List.range 10).map (fun n => (simFrameC3 n).state.detectedHands) =
      [1, 1, 1, 1, 1, 1, 1, 1, 1, 1] := by
  refine ⟨?_, ?_, ?_⟩ <;> with_unfolding_all rfl

/-- C4 (counterexample): with `maxHands = 1` and a fresh detection pass
returning 2 boxes, `estimateHands` retains BOTH boxes as tracked slots — the
tracked-slot count exceeds `maxHands`, contradicting the claimed cap. -/
theorem maxHands_cap_violated :
    cfgC4.maxHands = 1 ∧ oracleC4.detections.length = 2 ∧
    ¬(runC4.state.regionsOfInterest.length ≤ cfgC4.maxHands) := by
  have h : runC4.state.regionsOfInterest.length = 2 := by with_unfolding_all rfl
  have hm : cfgC4.maxHands = 1 := rfl
  refine ⟨hm, by with_unfolding_all rfl, ?_⟩
  rw [h, hm]
  omega

/-- C4 (amended): `maxHands` does not cap the tracked slots; on a fresh pass
every detected box is pushed, so with `maxHands = 1` and 2 detections the call
tracks 2 slots, reports 2 hands, and stores 2 as the detected count —
`config.maxHands` is only read (line 96) to gate forcing region-list
replacement on a count mismatch when it exceeds 1. -/
theorem maxHands_no_cap_trace :
    runC4.state.regionsOfInterest.length = 2 ∧
    runC4.state.detectedHands = 2 ∧
    ((runC4.hands).getD []).length = 2 := by
  refine ⟨?_, ?_, ?_⟩ <;> with_unfolding_all rfl

/-- C5: a forced fresh detection pass (zero previously detected hands or a
count mismatch) whose detector returns zero boxes makes `estimateHands` clear
the region list, set the detected count to 0, dispose the input image, and
return the null result — a valid per-frame outcome, not an error. -/
theorem forced_empty_detection_clears_state (t : TrigOracle) (inputSize : ℚ)
    (cfg : HandConfig) (oracle : FrameOracle) (st : PipelineState)
    (hforced : st.detectedHands = 0 ∨ st.detectedHands ≠ st.regionsOfInterest.length)
    (hempty : oracle.detections = []) :
    (estimateHands t inputSize cfg oracle st).hands = none ∧
    (estimateHands t inputSize cfg oracle st).state.regionsOfInterest = [] ∧
    (estimateHands t inputSize cfg oracle st).state.detectedHands = 0 ∧
    (estimateHands t inputSize cfg oracle st).detectorInvoked = true ∧
    (estimateHands t inputSize cfg oracle st).imageDisposed = true := by
  have hrec := reconcile_forced_empty cfg oracle st hforced hempty
  simp [estimateHands, hrec]

/-- Witness for C5 at a concrete input: fresh pipeline state, detector finds
nothing. -/
theorem forced_empty_detection_clears_state_witness :
    (estimateHands ⟨fun _ => 1, fun _ => 0, fun _ _ => 0⟩ 1 ⟨5, 1, 1/2⟩
        ⟨[], fun _ => (1, [])⟩ ⟨[], 0, 0⟩).hands = none ∧
    (estimateHands ⟨fun _ => 1, fun _ => 0, fun _ _ => 0⟩ 1 ⟨5, 1, 1/2⟩
        ⟨[], fun _ => (1, [])⟩ ⟨[], 0, 0⟩).state.regionsOfInterest = [] ∧
    (estimateHands ⟨fun _ => 1, fun _ => 0, fun _ _ => 0⟩ 1 ⟨5, 1, 1/2⟩
        ⟨[], fun _ => (1, [])⟩ ⟨[], 0, 0⟩).state.detectedHands = 0 ∧
    (estimateHands ⟨fun _ => 1, fun _ => 0, fun _ _ => 0⟩ 1 ⟨5, 1, 1/2⟩
        ⟨[], fun _ => (1, [])⟩ ⟨[], 0, 0⟩).detectorInvoked = true ∧
    (estimateHands ⟨fun _ => 1, fun _ => 0, fun _ _ => 0⟩ 1 ⟨5, 1, 1/2⟩
        ⟨[], fun _ => (1, [])⟩ ⟨[], 0, 0⟩).imageDisposed = true :=
  forced_empty_detection_clears_state _ _ _ _ _ (Or.inl rfl) rfl

/-- C6: on any call that reaches the slot loop with reconciled region list
`rs`, the returned hands are exactly one entry per slot whose predicted
confidence meets `minConfidence` (in slot order, each computed from that slot's
own box), and every slot whose confidence falls below the threshold keeps its
region entry unchanged for the next frame. -/
theorem minConfidence_gates_output (t : TrigOracle) (inputSize : ℚ) (cfg : HandConfig)
    (oracle : FrameOracle) (st : PipelineState) (inv fresh : Bool) (rs : List Box) (r1 : Nat)
    (hrec : reconcile cfg oracle st = (inv, some (fresh, rs, r1))) :
    (estimateHands t inputSize cfg oracle st).hands =
      some (((List.range rs.length).filter (passSlot cfg oracle)).map
        (fun i => slotHand t inputSize oracle fresh (rs.getD i default) i)) ∧
    ∀ i : Nat, (oracle.predict i).1 < cfg.minConfidence →
      (estimateHands t inputSize cfg oracle st).state.regionsOfInterest[i]? = rs[i]? := by
  rw [estimateHands_of_reconcile_some t inputSize cfg oracle st inv fresh rs r1 hrec]
  obtain ⟨h1, _, h3⟩ := slotPhase_spec t inputSize cfg oracle fresh rs
  constructor
  · show some (slotPhase t inputSize cfg oracle fresh rs).1 = _
    rw [h1]
  · intro i hi
    have hp : passSlot cfg oracle i = false := by
      simp only [passSlot, decide_eq_false_iff_not, not_le]
      exact hi
    show (slotPhase t inputSize cfg oracle fresh rs).2[i]? = rs[i]?
    exact h3 i hp

/-- Witness for C6 at a concrete input: one tracked slot, predictor confidence
0 below the 1/2 threshold; the call returns no hands and the slot's box is
still in place. -/
theorem minConfidence_gates_output_witness :
    (estimateHands trigC6 1 cfgC6 oracleC6 stC6).hands = some [] ∧
    (estimateHands trigC6 1 cfgC6 oracleC6 stC6).state.regionsOfInterest[0]? = some boxC6 := by
  have hrec : reconcile cfgC6 oracleC6 stC6 = (false, some (false, [boxC6], 1)) := by
    with_unfolding_all rfl
  obtain ⟨h1, h2⟩ :=
    minConfidence_gates_output trigC6 1 cfgC6 oracleC6 stC6 false false [boxC6] 1 hrec
  constructor
  · rw [h1]
    with_unfolding_all rfl
  · have h := h2 0 (by norm_num [oracleC6, cfgC6])
    simpa using h

/-- C7: `transformRawCoords` carries the third (depth) component of every raw
keypoint through unchanged; only the x/y components are scaled, rotated and
translated. -/
theorem transformRawCoords_depth_passthrough (t : TrigOracle) (inputSize : ℚ)
    (rawCoords : List (ℚ × ℚ × ℚ)) (box2 : Box) (angle : ℚ) (rotationMatrix : Mat3) :
    (transformRawCoords t inputSize rawCoords box2 angle rotationMatrix).map
        (fun coord => coord.2.2) =
      rawCoords.map (fun coord => coord.2.2) := by
  simp [transformRawCoords, List.map_map]

/-- C8: whenever the stored detected-hands count is 0, the next
`estimateHands` call invokes the external bounding-box detector. -/
theorem zero_detected_forces_detector (t : TrigOracle) (inputSize : ℚ) (cfg : HandConfig)
    (oracle : FrameOracle) (st : PipelineState) (h : st.detectedHands = 0) :
    (estimateHands t inputSize cfg oracle st).detectorInvoked = true :=
  detectorInvoked_of_zero_detected t inputSize cfg oracle st h

/-- Witness for C8 at a concrete input: detected count 0 and a non-empty
region list left over, detector still invoked. -/
theorem zero_detected_forces_detector_witness :
    (estimateHands ⟨fun _ => 1, fun _ => 0, fun _ _ => 0⟩ 1 ⟨5, 1, 1/2⟩
        ⟨[], fun _ => (0, [])⟩ ⟨[], 3, 0⟩).detectorInvoked = true :=
  zero_detected_forces_detector _ _ _ _ _ rfl

theorem listMin_le_listMax : ∀ (l : List ℚ), l ≠ [] → listMin l ≤ listMax l := by
  intro l h
  cases l with
  | nil => exact absurd rfl h
  | cons x tl =>
    cases tl with
    | nil => simp [listMin, listMax]
    | cons y tl2 =>
      calc listMin (x :: y :: tl2) = min x (listMin (y :: tl2)) := rfl
        _ ≤ x := min_le_left _ _
        _ ≤ max x (listMax (y :: tl2)) := le_max_left _ _
        _ = listMax (x :: y :: tl2) := rfl

/-- C9: for every nonempty list of landmarks, the box returned by
`calculateLandmarksBoundingBox` satisfies the Box invariant
`startPoint <= endPoint` componentwise (on the empty list, which no source
call site produces, the JS spreads evaluate to `±Infinity`, outside this
rational embedding). -/
theorem calculateLandmarksBoundingBox_startLeEnd (landmarks : List (ℚ × ℚ))
    (h : landmarks ≠ []) :
    (calculateLandmarksBoundingBox landmarks).startPoint.1 ≤
        (calculateLandmarksBoundingBox landmarks).endPoint.1 ∧
    (calculateLandmarksBoundingBox landmarks).startPoint.2 ≤
        (calculateLandmarksBoundingBox landmarks).endPoint.2 := by
  cases landmarks with
  | nil => exact absurd rfl h
  | cons a tl =>
    constructor
    · show listMin ((a :: tl).map (fun d => d.1)) ≤ listMax ((a :: tl).map (fun d => d.1))
      exact listMin_le_listMax _ (by simp)
    · show listMin ((a :: tl).map (fun d => d.2)) ≤ listMax ((a :: tl).map (fun d => d.2))
      exact listMin_le_listMax _ (by simp)

/-- Witness for C9 at a concrete input. -/
theorem calculateLandmarksBoundingBox_startLeEnd_witness :
    (calculateLandmarksBoundingBox [(1, 5), (3, 2)]).startPoint.1 ≤
        (calculateLandmarksBoundingBox [(1, 5), (3, 2)]).endPoint.1 ∧
    (calculateLandmarksBoundingBox [(1, 5), (3, 2)]).startPoint.2 ≤
        (calculateLandmarksBoundingBox [(1, 5), (3, 2)]).endPoint.2 :=
  calculateLandmarksBoundingBox_startLeEnd [(1, 5), (3, 2)] (by simp)

/-- C10: after every completed call the stored detected-hands counter equals
the length of the returned hand list (0 when the call returned null); and on
any call that reaches the slot loop, if some in-range slot is dropped for low
confidence, the counter ends up strictly below the region-list length, which
forces the next call — whatever its config and oracles — to invoke the
detector. -/
theorem detectedHands_matches_returned (t : TrigOracle) (inputSize : ℚ) (cfg : HandConfig)
    (oracle : FrameOracle) (st : PipelineState) :
    (estimateHands t inputSize cfg oracle st).state.detectedHands =
      (((estimateHands t inputSize cfg oracle st).hands).getD []).length ∧
    ((estimateHands t inputSize cfg oracle st).hands = none →
      (estimateHands t inputSize cfg oracle st).state.detectedHands = 0) ∧
    ∀ (inv fresh : Bool) (rs : List Box) (r1 : Nat),
      reconcile cfg oracle st = (inv, some (fresh, rs, r1)) →
      ∀ i : Nat, i < rs.length → (oracle.predict i).1 < cfg.minConfidence →
        (estimateHands t inputSize cfg oracle st).state.detectedHands <
            (estimateHands t inputSize cfg oracle st).state.regionsOfInterest.length ∧
        ∀ (t2 : TrigOracle) (inputSize2 : ℚ) (cfg2 : HandConfig) (oracle2 : FrameOracle),
          (estimateHands t2 inputSize2 cfg2 oracle2
              (estimateHands t inputSize cfg oracle st).state).detectorInvoked = true := by
  refine ⟨?_, ?_, ?_⟩
  · rcases hr : reconcile cfg oracle st with ⟨inv, rest⟩
    rcases rest with _ | ⟨fresh, rs, r1⟩ <;> simp [estimateHands, hr]
  · intro hn
    rcases hr : reconcile cfg oracle st with ⟨inv, rest⟩
    rcases rest with _ | ⟨fresh, rs, r1⟩ <;> simp [estimateHands, hr] at hn ⊢
  · intro inv fresh rs r1 hrec i hi hconf
    have heq := estimateHands_of_reconcile_some t inputSize cfg oracle st inv fresh rs r1 hrec
    obtain ⟨h1, h2, _⟩ := slotPhase_spec t inputSize cfg oracle fresh rs
    have hp : passSlot cfg oracle i = false := by
      simp only [passSlot, decide_eq_false_iff_not, not_le]
      exact hconf
    have hlen : (slotPhase t inputSize cfg oracle fresh rs).1.length < rs.length := by
      rw [h1, List.length_map]
      have hflt := length_filter_lt_of_mem_false (passSlot cfg oracle) (List.range rs.length) i
        (List.mem_range.mpr hi) hp
      simpa using hflt
    have hlt : (estimateHands t inputSize cfg oracle st).state.detectedHands <
        (estimateHands t inputSize cfg oracle st).state.regionsOfInterest.length := by
      rw [heq]
      simpa [h2] using hlen
    refine ⟨hlt, ?_⟩
    intro t2 inputSize2 cfg2 oracle2
    exact detectorInvoked_of_count_mismatch t2 inputSize2 cfg2 oracle2 _ (Nat.ne_of_lt hlt)

/-- Witness for C10 at a concrete input: one tracked slot dropped for low
confidence; the counter is below the region count and the next call invokes
the detector. -/
theorem detectedHands_matches_returned_witness :
    (estimateHands trigC10 1 cfgC10 oracleC10 stC10).state.detectedHands <
        (estimateHands trigC10 1 cfgC10 oracleC10 stC10).state.regionsOfInterest.length ∧
    (estimateHands trigC10 1 cfgC10 oracleC10 stC10).state.detectedHands =
      (((estimateHands trigC10 1 cfgC10 oracleC10 stC10).hands).getD []).length ∧
    (estimateHands trigC10 1 cfgC10 oracleC10
        (estimateHands trigC10 1 cfgC10 oracleC10 stC10).state).detectorInvoked = true := by
  have h := detectedHands_matches_returned trigC10 1 cfgC10 oracleC10 stC10
  have hrec : reconcile cfgC10 oracleC10 stC10 = (false, some (false, [boxC10], 1)) := by
    with_unfolding_all rfl
  have h3 := h.2.2 false false [boxC10] 1 hrec 0 (by simp) (by norm_num [oracleC10, cfgC10])
  exact ⟨h3.1, h.1, h3.2 trigC10 1 cfgC10 oracleC10⟩

end HandPipeline
